import Mathlib

/-!
Shallow embedding of the construction-site event derivation engine
(`ConstructionSiteService` in the Angular frontend): the event normalizer,
the per-plate session tracker, the theft-alert detector and the vendor
analytics aggregator, together with proofs of the specified properties.

Timestamps are modelled as integer milliseconds since the epoch (the code
compares `Date.getTime()` values); local-time calendar operations
(`getHours`, `setHours(0,0,0,0)`) are modelled in UTC.  JavaScript string
lowercasing/uppercasing is modelled on ASCII, which covers every keyword
and state code the code compares against.  JavaScript `Array.sort` is a
stable sort, modelled by `List.insertionSort` with the comparator's
non-strict order.  JavaScript `Map` iterates in key-insertion order,
modelled by an association list where new keys are appended at the end.
-/

/-- ASCII lowercasing of one character, as `toLowerCase` acts on ASCII. -/
def lowerChar (c : Char) : Char :=
  if c.toNat ≥ 65 && c.toNat ≤ 90 then Char.ofNat (c.toNat + 32) else c

/-- ASCII lowercasing of a string (model of `String.prototype.toLowerCase`). -/
def lowerStr (s : String) : String := ⟨s.data.map lowerChar⟩

/-- ASCII uppercasing of one character. -/
def upperChar (c : Char) : Char :=
  if c.toNat ≥ 97 && c.toNat ≤ 122 then Char.ofNat (c.toNat - 32) else c

/-- ASCII uppercasing of a string (model of `String.prototype.toUpperCase`). -/
def upperStr (s : String) : String := ⟨s.data.map upperChar⟩

/-- Is the first list a prefix of the second (character-wise)? -/
def listPre : List Char → List Char → Bool
  | [], _ => true
  | _ :: _, [] => false
  | a :: as, b :: bs => a == b && listPre as bs

/-- Does `hay` contain `needle` as a contiguous substring
(model of `String.prototype.includes`)? -/
def containsSub : List Char → List Char → Bool
  | hay, needle =>
    match hay with
    | [] => needle.isEmpty
    | _ :: t => listPre needle hay || containsSub t needle

/-- Substring test on strings. -/
def strContains (hay needle : String) : Bool := containsSub hay.data needle.data

/-- Decision attached to a gate event (`event_type` in the service). -/
inductive Decision where
  | ALLOW
  | ALERT
  | LOG_ONLY
  deriving DecidableEq

/-- Movement direction assigned to a classified record. -/
inductive Direction where
  | Entry
  | Exit
  deriving DecidableEq

/-- Raw ANPR event as delivered by `AnprService` (`Event` interface):
optional fields are `Option`, the timestamp is epoch milliseconds. -/
structure Event where
  id : Nat
  event_type : Decision
  description : Option String
  rule_name : Option String
  timestamp : Int
  plate_text : Option String
  deriving DecidableEq

/-- Classified construction-site event (`ConstructionSiteEvent` interface).
`vehicleCategory` keeps the literal strings used by the code. -/
structure ClassifiedRecord where
  id : Nat
  plateNumber : String
  vehicleCategory : String
  direction : Direction
  gateName : String
  timestamp : Int
  decision : Decision
  eventType : Decision
  description : Option String
  ruleName : Option String
  deriving DecidableEq

/-- Per-plate session state kept by the tracker during one run. -/
structure SessionState where
  firstSeen : Int
  lastSeen : Int
  entryCount : Nat
  exitCount : Nat
  deriving DecidableEq

/-- Material theft alert (`MaterialTheftAlert` interface). -/
structure TheftAlert where
  id : Nat
  plateNumber : String
  alertType : String
  message : String
  timestamp : Int
  description : Option String
  deriving DecidableEq

/-- Vendor delivery analytics row (`VendorAnalytics` interface);
`averageDuration` is in minutes, an exact rational for the float. -/
structure VendorAnalytics where
  vendorName : String
  deliveriesToday : Nat
  averageDuration : Option ℚ
  suspiciousExits : Nat
  lastDeliveryTime : Option Int
  deriving DecidableEq

/-- JavaScript truthiness for an optional string: `undefined` and the
empty string are falsy. -/
def optStr (o : Option String) : Option String :=
  match o with
  | none => none
  | some s => if s = "" then none else some s

/-- Lowercased description with the `(description || '')` default. -/
def descLower (d : Option String) : String := lowerStr (d.getD "")

/-- Does the description carry an exit keyword (`exit`, `departure`, `leaving`)? -/
def hasExitKw (d : Option String) : Bool :=
  strContains (descLower d) "exit" || strContains (descLower d) "departure" ||
    strContains (descLower d) "leaving"

/-- Does the description carry an entry keyword (`entry`, `arrival`, `entering`)? -/
def hasEntryKw (d : Option String) : Bool :=
  strContains (descLower d) "entry" || strContains (descLower d) "arrival" ||
    strContains (descLower d) "entering"

/-- Truck/material keywords checked first by `determineVehicleCategory`. -/
def hasTruckKw (d : Option String) : Bool :=
  strContains (descLower d) "truck" || strContains (descLower d) "material" ||
    strContains (descLower d) "delivery"

/-- Machinery keywords checked second by `determineVehicleCategory`. -/
def hasMachineryKw (d : Option String) : Bool :=
  strContains (descLower d) "machinery" || strContains (descLower d) "excavator" ||
    strContains (descLower d) "crane"

/-- Staff keywords checked third by `determineVehicleCategory`. -/
def hasStaffKw (d : Option String) : Bool :=
  strContains (descLower d) "staff" || strContains (descLower d) "employee" ||
    strContains (descLower d) "personnel"

/-- Vehicle category from the description keyword scan, mirroring
`determineVehicleCategory` (the plate argument is unused by the code). -/
def determineVehicleCategory (_plateNumber : String) (description : Option String) : String :=
  if hasTruckKw description then "Material Truck"
  else if hasMachineryKw description then "Machinery"
  else if hasStaffKw description then "Staff"
  else "Material Truck"

/-- JavaScript `\s` whitespace for the gate pattern. -/
def isWsChar (c : Char) : Bool :=
  c == ' ' || c == '\t' || c == '\n' || c == '\r' || c == '\x0b' || c == '\x0c'

/-- Case-insensitive `[a-z0-9]` character class. -/
def isAlnumCI (c : Char) : Bool :=
  (lowerChar c ≥ 'a' && lowerChar c ≤ 'z') || (c ≥ '0' && c ≤ '9')

/-- Attempt to match `gate\s*([a-z0-9]+)` (case-insensitively) at the head
of the character list, returning the captured token. -/
def gateAt : List Char → Option (List Char)
  | g :: a :: t :: e :: rest =>
    if lowerChar g = 'g' ∧ lowerChar a = 'a' ∧ lowerChar t = 't' ∧ lowerChar e = 'e' then
      let tok := (rest.dropWhile isWsChar).takeWhile isAlnumCI
      if tok.isEmpty then none else some tok
    else none
  | _ => none

/-- Left-to-right scan for the first position where the gate pattern
matches, as regular-expression search does. -/
def gateTokenScan : List Char → Option (List Char)
  | [] => none
  | c :: cs =>
    match gateAt (c :: cs) with
    | some tok => some tok
    | none => gateTokenScan cs

/-- Gate label derivation, mirroring `determineGateName`: a truthy rule
name is used verbatim when it mentions `gate`, otherwise prefixed with
`"Gate "`; else the description is searched for `gate <token>`; else
`"Main Gate"`. -/
def determineGateName (ruleName description : Option String) : String :=
  match optStr ruleName with
  | some rn => if strContains (lowerStr rn) "gate" then rn else "Gate " ++ rn
  | none =>
    match optStr description with
    | some d =>
      match gateTokenScan d.data with
      | some tok => "Gate " ++ ⟨tok⟩
      | none => "Main Gate"
    | none => "Main Gate"

/-- Plate text with the `(plate_text || 'UNKNOWN')` coalescing. -/
def plateOf (e : Event) : String :=
  match e.plate_text with
  | none => "UNKNOWN"
  | some s => if s = "" then "UNKNOWN" else s

/-- A record survives normalization iff its plate is not the sentinel and
it is not flagged as an invalid plate format. -/
def keepEvent (e : Event) : Bool :=
  !(plateOf e == "UNKNOWN") &&
    !(determineGateName e.rule_name e.description == "Gate invalid_plate_format" ||
      e.rule_name == some "invalid_plate_format")

/-- Lookup in the insertion-ordered session map. -/
def lookupState (m : List (String × SessionState)) (k : String) : Option SessionState :=
  (m.find? (fun pr => pr.1 == k)).map (fun pr => pr.2)

/-- Update the session map at a key, appending the key at the end when it
is new (JavaScript `Map.set`). -/
def updateState (m : List (String × SessionState)) (k : String) (v : SessionState) :
    List (String × SessionState) :=
  if m.any (fun pr => pr.1 == k) then
    m.map (fun pr => if pr.1 == k then (pr.1, v) else pr)
  else m ++ [(k, v)]

/-- One step of `transformToConstructionSiteEvents`: process a single
event against the session map, producing the updated map and appending at
most one classified record. -/
def stepEvent (acc : List (String × SessionState) × List ClassifiedRecord) (e : Event) :
    List (String × SessionState) × List ClassifiedRecord :=
  let plateNumber := plateOf e
  if plateNumber = "UNKNOWN" then acc
  else
    let gateName := determineGateName e.rule_name e.description
    if gateName = "Gate invalid_plate_format" ∨ e.rule_name = some "invalid_plate_format" then acc
    else if e.event_type = Decision.ALLOW then
      let st0 := (lookupState acc.1 plateNumber).getD
        ⟨e.timestamp, e.timestamp, 0, 0⟩
      let dirSt :=
        if st0.entryCount = 0 ∧ st0.exitCount = 0 then
          (Direction.Entry, { st0 with entryCount := st0.entryCount + 1 })
        else if e.timestamp - st0.lastSeen > 7200000 then
          (Direction.Entry, { st0 with entryCount := st0.entryCount + 1, firstSeen := e.timestamp })
        else if st0.entryCount > st0.exitCount then
          (Direction.Exit, { st0 with exitCount := st0.exitCount + 1 })
        else if hasExitKw e.description then
          (Direction.Exit, { st0 with exitCount := st0.exitCount + 1 })
        else if hasEntryKw e.description then
          (Direction.Entry, { st0 with entryCount := st0.entryCount + 1 })
        else if e.timestamp - st0.firstSeen < 1800000 then
          (Direction.Entry, { st0 with entryCount := st0.entryCount + 1 })
        else
          (Direction.Entry, { st0 with entryCount := st0.entryCount + 1 })
      let st2 := { dirSt.2 with lastSeen := e.timestamp }
      (updateState acc.1 plateNumber st2,
        acc.2 ++ [⟨e.id, plateNumber, determineVehicleCategory plateNumber e.description,
          dirSt.1, gateName, e.timestamp, e.event_type, e.event_type,
          e.description, e.rule_name⟩])
    else
      let direction :=
        if e.event_type = Decision.ALERT then
          if hasExitKw e.description then Direction.Exit
          else if hasEntryKw e.description then Direction.Entry
          else Direction.Exit
        else Direction.Entry
      (acc.1,
        acc.2 ++ [⟨e.id, plateNumber, determineVehicleCategory plateNumber e.description,
          direction, gateName, e.timestamp, e.event_type, e.event_type,
          e.description, e.rule_name⟩])

instance eventAscDec : DecidableRel (fun a b : Event => a.timestamp ≤ b.timestamp) :=
  fun _ _ => Int.decLe _ _

instance recDescDec : DecidableRel (fun a b : ClassifiedRecord => b.timestamp ≤ a.timestamp) :=
  fun _ _ => Int.decLe _ _

/-- Full transformation `transformToConstructionSiteEvents`: sort the raw
events by ascending timestamp (stable, as `Array.sort`), fold the session
step over them, then sort the classified output newest-first for display. -/
def transformToConstructionSiteEvents (events : List Event) : List ClassifiedRecord :=
  let sorted := List.insertionSort (fun a b : Event => a.timestamp ≤ b.timestamp) events
  List.insertionSort (fun a b : ClassifiedRecord => b.timestamp ≤ a.timestamp)
    ((sorted.foldl stepEvent ([], [])).2)

/-- Hour of day (0..23) of an epoch-millisecond timestamp (model of
`Date.getHours`, in UTC). -/
def hourOfMs (t : Int) : Int := (t % 86400000) / 3600000

/-- After-hours test used by the detector: before 06:00 or from 20:00. -/
def isAfterHours (t : Int) : Bool := hourOfMs t < 6 || hourOfMs t ≥ 20

/-- Alert emitted for every ALERT-decision exit. -/
def unauthorizedAlertOf (p : String) (c : ClassifiedRecord) : TheftAlert :=
  ⟨c.id, p, "Unauthorized Exit", "Unauthorized material movement detected",
    c.timestamp, c.description⟩

/-- Alert emitted for an ALERT-decision exit with no matching entry. -/
def noMatchingEntryAlertOf (p : String) (c : ClassifiedRecord) : TheftAlert :=
  ⟨c.id, p, "No Matching Entry", "Vehicle exited without recorded entry",
    c.timestamp, c.description⟩

/-- Alert emitted for an ALERT-decision exit outside working hours. -/
def afterHoursAlertOf (p : String) (c : ClassifiedRecord) : TheftAlert :=
  ⟨c.id, p, "After Hours Exit", "Material movement detected outside working hours",
    c.timestamp, c.description⟩

/-- Does some entry of the plate group precede the exit by less than 24
hours (the matching-entry test of the detector)? -/
def hasMatchingEntry (entries : List ClassifiedRecord) (x : ClassifiedRecord) : Bool :=
  entries.any (fun en => en.timestamp < x.timestamp && x.timestamp - en.timestamp < 86400000)

/-- Append a record to its plate group, creating the group at the end of
the map when the plate is new (JavaScript `Map` insertion order). -/
def addPlate (m : List (String × List ClassifiedRecord)) (c : ClassifiedRecord) :
    List (String × List ClassifiedRecord) :=
  if m.any (fun pr => pr.1 == c.plateNumber) then
    m.map (fun pr => if pr.1 == c.plateNumber then (pr.1, pr.2 ++ [c]) else pr)
  else m ++ [(c.plateNumber, [c])]

/-- Group the classified records by plate number, in insertion order. -/
def buildPlateGroups (cs : List ClassifiedRecord) : List (String × List ClassifiedRecord) :=
  cs.foldl addPlate []

/-- Alerts produced for one plate group: unauthorized exits, then exits
without matching entry, then after-hours exits — each drawn from the
ALERT-decision exits of the group. -/
def perPlateAlerts (p : String) (l : List ClassifiedRecord) : List TheftAlert :=
  let exits := l.filter
    (fun c => c.direction == Direction.Exit && c.decision == Decision.ALERT)
  let entries := l.filter (fun c => c.direction == Direction.Entry)
  exits.map (unauthorizedAlertOf p) ++
    exits.filterMap
      (fun x => if hasMatchingEntry entries x then none else some (noMatchingEntryAlertOf p x)) ++
    exits.filterMap
      (fun x => if isAfterHours x.timestamp then some (afterHoursAlertOf p x) else none)

instance alertDescDec : DecidableRel (fun a b : TheftAlert => b.timestamp ≤ a.timestamp) :=
  fun _ _ => Int.decLe _ _

/-- Theft alert derivation `identifyTheftAlerts`: group by plate, emit the
three alert families per group, sort newest-first. -/
def identifyTheftAlerts (cs : List ClassifiedRecord) : List TheftAlert :=
  List.insertionSort (fun a b : TheftAlert => b.timestamp ≤ a.timestamp)
    ((buildPlateGroups cs).foldl (fun acc pr => acc ++ perPlateAlerts pr.1 pr.2) [])

/-- Indian state-code table used for vendor mapping. -/
def stateCodes (s : String) : Option String :=
  match s with
  | "MH" => some "Maharashtra"
  | "DL" => some "Delhi"
  | "KA" => some "Karnataka"
  | "TN" => some "Tamil Nadu"
  | "GJ" => some "Gujarat"
  | "RJ" => some "Rajasthan"
  | "UP" => some "Uttar Pradesh"
  | "WB" => some "West Bengal"
  | "MP" => some "Madhya Pradesh"
  | "AP" => some "Andhra Pradesh"
  | "TS" => some "Telangana"
  | "KL" => some "Kerala"
  | "HR" => some "Haryana"
  | "PB" => some "Punjab"
  | "OR" => some "Odisha"
  | "BR" => some "Bihar"
  | "AS" => some "Assam"
  | "JH" => some "Jharkhand"
  | "UT" => some "Uttarakhand"
  | "HP" => some "Himachal Pradesh"
  | _ => none

/-- Vendor name from the first two plate characters (`getVendorName`). -/
def getVendorName (plateNumber : String) : String :=
  if plateNumber.length ≥ 2 then
    let stateCode := upperStr (plateNumber.take 2)
    (stateCodes stateCode).getD ("Vendor " ++ stateCode)
  else "Unknown Vendor"

/-- Entry/exit lists accumulated per vendor. -/
structure VendorData where
  entries : List ClassifiedRecord
  exits : List ClassifiedRecord
  deriving DecidableEq

/-- Push a record into the entry or exit list of a vendor group,
following its direction. -/
def vendorUpd (c : ClassifiedRecord) (d : VendorData) : VendorData :=
  if c.direction == Direction.Entry then ⟨d.entries ++ [c], d.exits⟩
  else ⟨d.entries, d.exits ++ [c]⟩

/-- Add an ALLOW record to its vendor group (non-ALLOW records are
skipped); the group is created at the end of the map when new. -/
def addVendor (m : List (String × VendorData)) (c : ClassifiedRecord) :
    List (String × VendorData) :=
  if c.decision == Decision.ALLOW then
    (if m.any (fun pr => pr.1 == getVendorName c.plateNumber) then m
     else m ++ [(getVendorName c.plateNumber, ⟨[], []⟩)]).map (fun pr =>
      if pr.1 == getVendorName c.plateNumber then (pr.1, vendorUpd c pr.2) else pr)
  else m

/-- Group the ALLOW records by vendor, in insertion order. -/
def buildVendorGroups (cs : List ClassifiedRecord) : List (String × VendorData) :=
  cs.foldl addVendor []

/-- Local midnight of an epoch-millisecond timestamp (model of
`setHours(0,0,0,0)`, in UTC). -/
def dayStart (t : Int) : Int := t - t % 86400000

/-- Exit-matching test of the aggregator: the exit is strictly after the
entry and less than 24 hours later. -/
def matchPred (en ex : ClassifiedRecord) : Bool :=
  ex.timestamp > en.timestamp && ex.timestamp - en.timestamp < 86400000

/-- Durations (in minutes) of the matched entry/exit pairs: each entry is
paired with the first exit of the group, in group order, that matches. -/
def durationsOf (entries exits : List ClassifiedRecord) : List ℚ :=
  entries.filterMap (fun en =>
    (exits.find? (matchPred en)).map
      (fun ex => ((ex.timestamp - en.timestamp : Int) : ℚ) / 60000))

/-- Arithmetic mean of a list of durations, `none` when the list is empty. -/
def averageOf (ds : List ℚ) : Option ℚ :=
  match ds with
  | [] => none
  | _ => some (ds.foldl (fun a b => a + b) 0 / (ds.length : ℚ))

instance entryDescDec :
    DecidableRel (fun a b : ClassifiedRecord => b.timestamp ≤ a.timestamp) :=
  fun _ _ => Int.decLe _ _

/-- Analytics row for one vendor group, relative to the midnight `today`. -/
def vendorAnalyticsOf (today : Int) (v : String) (d : VendorData) : VendorAnalytics :=
  { vendorName := v
    deliveriesToday := (d.entries.filter (fun en => dayStart en.timestamp == today)).length
    averageDuration := averageOf (durationsOf d.entries d.exits)
    suspiciousExits := (d.exits.filter (fun ex => ex.decision == Decision.ALERT)).length
    lastDeliveryTime :=
      ((List.insertionSort (fun a b : ClassifiedRecord => b.timestamp ≤ a.timestamp)
        d.entries).head?).map (fun en => en.timestamp) }

instance vaDescDec :
    DecidableRel (fun a b : VendorAnalytics => b.deliveriesToday ≤ a.deliveriesToday) :=
  fun _ _ => Nat.decLe _ _

/-- Vendor analytics `calculateVendorAnalytics`: group the ALLOW records
by vendor, compute each row, sort by deliveries today descending.  The
reference computes `today` from the wall clock; it is a parameter here. -/
def calculateVendorAnalytics (today : Int) (cs : List ClassifiedRecord) :
    List VendorAnalytics :=
  List.insertionSort (fun a b : VendorAnalytics => b.deliveriesToday ≤ a.deliveriesToday)
    ((buildVendorGroups cs).map (fun pr => vendorAnalyticsOf today pr.1 pr.2))

/-- Earliest matching exit of an entry, following the specification's
words (the earliest exit of the group with `exitTimestamp > entryTimestamp`
and a gap below 24 hours); used to compare against the code's behaviour. -/
def specEarliestMatchingExit (en : ClassifiedRecord) (exits : List ClassifiedRecord) :
    Option ClassifiedRecord :=
  (List.insertionSort (fun a b : ClassifiedRecord => a.timestamp ≤ b.timestamp)
    (exits.filter (matchPred en))).head?

/-- Durations produced by the specification's earliest-exit matching. -/
def specDurationsOf (entries exits : List ClassifiedRecord) : List ℚ :=
  entries.filterMap (fun en =>
    (specEarliestMatchingExit en exits).map
      (fun ex => ((ex.timestamp - en.timestamp : Int) : ℚ) / 60000))

/-- Shape invariant of every classified record the transformation emits:
its category and gate label are derived from its own fields, it is not a
dropped record, and non-ALLOW directions follow the keyword/default rule. -/
def WFRecord (c : ClassifiedRecord) : Prop :=
  c.vehicleCategory = determineVehicleCategory c.plateNumber c.description ∧
  c.gateName = determineGateName c.ruleName c.description ∧
  c.plateNumber ≠ "UNKNOWN" ∧
  c.ruleName ≠ some "invalid_plate_format" ∧
  c.gateName ≠ "Gate invalid_plate_format" ∧
  c.decision = c.eventType ∧
  (c.decision ≠ Decision.ALLOW →
    c.direction =
      if c.decision = Decision.ALERT then
        if hasExitKw c.description then Direction.Exit
        else if hasEntryKw c.description then Direction.Entry
        else Direction.Exit
      else Direction.Entry)

/-- Membership test of a record in the entry list of vendor group `v`. -/
def vEntryPred (v : String) (x : ClassifiedRecord) : Bool :=
  x.decision == Decision.ALLOW &&
    (getVendorName x.plateNumber == v && x.direction == Direction.Entry)

/-- Membership test of a record in the exit list of vendor group `v`. -/
def vExitPred (v : String) (x : ClassifiedRecord) : Bool :=
  x.decision == Decision.ALLOW &&
    (getVendorName x.plateNumber == v && x.direction == Direction.Exit)

/-- Invariant of the vendor map relative to the records already folded:
each group holds exactly the ALLOW records of its vendor split by
direction, in order, and every seen ALLOW record has a group. -/
def VendorInv (seen : List ClassifiedRecord) (m : List (String × VendorData)) : Prop :=
  (∀ pr ∈ m, pr.2.entries = seen.filter (vEntryPred pr.1) ∧
    pr.2.exits = seen.filter (vExitPred pr.1)) ∧
  (∀ x ∈ seen, x.decision = Decision.ALLOW → ∃ pr ∈ m, pr.1 = getVendorName x.plateNumber)

/-- Concrete ALLOW classified record used to instantiate analytics claims. -/
def cAllowEntry : ClassifiedRecord :=
  ⟨1, "MH12AB1234", "Material Truck", Direction.Entry, "Main Gate", 0,
    Decision.ALLOW, Decision.ALLOW, none, none⟩

/-- Concrete non-ALLOW event for the frame witness. -/
def eAlertPlainC9 : Event :=
  ⟨7, Decision.ALERT, some "suspicious load", none, 3600000, some "MH12AB1234"⟩

/-- Concrete ALLOW event for the frame witness. -/
def eAllowC9 : Event :=
  ⟨8, Decision.ALLOW, none, none, 5400000, some "DL01XY0001"⟩

/-- Concrete plate-less event for the C10 witness. -/
def eNoPlateC10 : Event := ⟨9, Decision.ALLOW, some "delivery", none, 0, none⟩

/-- Concrete invalid-format event for the C7 witness. -/
def eInvalidRuleC7 : Event :=
  ⟨10, Decision.ALLOW, some "entry", some "invalid_plate_format", 0, some "MH12AB1234"⟩

/-- Concrete LOG_ONLY event whose description carries an exit keyword. -/
def eLogExitC2 : Event :=
  ⟨11, Decision.LOG_ONLY, some "vehicle exit", none, 0, some "MH12AB1234"⟩

/-- Concrete keyword-less ALERT event for the C2 witness. -/
def eAlertPlainC2 : Event :=
  ⟨12, Decision.ALERT, some "suspicious load", none, 3600000, some "DL01XY0001"⟩

/-- Concrete ALLOW event whose description holds both a machinery and a
truck keyword. -/
def eExcDeliveryC4 : Event :=
  ⟨13, Decision.ALLOW, some "excavator delivery", none, 0, some "MH12AB1234"⟩

/-- Concrete staff event for the C4 witness. -/
def eStaffC4 : Event :=
  ⟨14, Decision.ALLOW, some "Staff arrival", none, 0, some "KA05AB0001"⟩

/-- Concrete unmatched ALERT exit for the C6 witness. -/
def cAlertLeavingC6 : ClassifiedRecord :=
  ⟨15, "MH12AB1234", "Material Truck", Direction.Exit, "Main Gate", 36000000,
    Decision.ALERT, Decision.ALERT, some "vehicle leaving", none⟩

/-- Concrete ALERT exit at 22:00 for the C8 witness. -/
def cAlert22C8 : ClassifiedRecord :=
  ⟨16, "MH12AB1234", "Material Truck", Direction.Exit, "Main Gate", 79200000,
    Decision.ALERT, Decision.ALERT, some "vehicle leaving", none⟩

/-- Concrete ALERT exit at 14:00 for the C8 witness. -/
def cAlert14C8 : ClassifiedRecord :=
  ⟨17, "MH12AB1234", "Material Truck", Direction.Exit, "Main Gate", 50400000,
    Decision.ALERT, Decision.ALERT, some "vehicle leaving", none⟩

/-- Entry list of a vendor group, as a filter over the classified list. -/
def vendorEntriesOf (cs : List ClassifiedRecord) (v : String) : List ClassifiedRecord :=
  cs.filter (vEntryPred v)

/-- Exit list of a vendor group, as a filter over the classified list. -/
def vendorExitsOf (cs : List ClassifiedRecord) (v : String) : List ClassifiedRecord :=
  cs.filter (vExitPred v)

/-- First ALLOW event of the C3 scenario (entry at `t = 0`). -/
def eC3a : Event := ⟨21, Decision.ALLOW, none, none, 0, some "MH11AA1111"⟩

/-- Second ALLOW event of the C3 scenario (exit at one hour). -/
def eC3b : Event := ⟨22, Decision.ALLOW, none, none, 3600000, some "MH11AA1111"⟩

/-- Third ALLOW event of the C3 scenario (keyword exit at two hours). -/
def eC3c : Event := ⟨23, Decision.ALLOW, some "exit", none, 7200000, some "MH11AA1111"⟩

/-- Inserting an element that precedes every list element puts it in front. -/
lemma orderedInsert_eq_cons {α} (r : α → α → Prop) [DecidableRel r] (a : α) :
    ∀ l : List α, (∀ y ∈ l, r a y) → List.orderedInsert r a l = a :: l := by
  intro l h
  cases l with
  | nil => rfl
  | cons b l =>
    have : r a b := h b (by simp)
    simp [List.orderedInsert, this]

/-- Filtering commutes with ordered insertion into a sorted list, for a
transitive order. -/
lemma filter_orderedInsert {α} (r : α → α → Prop) [DecidableRel r]
    (htr : ∀ a b c, r a b → r b c → r a c)
    (p : α → Bool) (a : α) :
    ∀ l : List α, l.Pairwise r →
      (List.orderedInsert r a l).filter p =
        if p a then List.orderedInsert r a (l.filter p) else l.filter p := by
  intro l
  induction l with
  | nil =>
    intro _
    by_cases hpa : p a = true
    · simp [List.orderedInsert, List.filter, hpa]
    · simp only [Bool.not_eq_true] at hpa
      simp [List.orderedInsert, List.filter, hpa]
  | cons b l ih =>
    intro hp
    have hb : ∀ y ∈ l, r b y := (List.pairwise_cons.mp hp).1
    have hl : l.Pairwise r := (List.pairwise_cons.mp hp).2
    by_cases hr : r a b
    · rw [List.orderedInsert, if_pos hr]
      by_cases hpb : p b = true
      · by_cases hpa : p a = true
        · simp [List.filter_cons, hpa, hpb, List.orderedInsert, hr]
        · simp only [Bool.not_eq_true] at hpa
          simp [List.filter_cons, hpa, hpb]
      · simp only [Bool.not_eq_true] at hpb
        have hall : ∀ y ∈ l.filter p, r a y := by
          intro y hy
          exact htr a b y hr (hb y (List.mem_of_mem_filter hy))
        by_cases hpa : p a = true
        · simp [List.filter_cons, hpa, hpb, orderedInsert_eq_cons r a _ hall]
        · simp only [Bool.not_eq_true] at hpa
          simp [List.filter_cons, hpa, hpb]
    · rw [List.orderedInsert, if_neg hr]
      by_cases hpb : p b = true
      · by_cases hpa : p a = true
        · simp [List.filter_cons, hpa, hpb, ih hl, List.orderedInsert, hr]
        · simp only [Bool.not_eq_true] at hpa
          simp [List.filter_cons, hpa, hpb, ih hl]
      · simp only [Bool.not_eq_true] at hpb
        by_cases hpa : p a = true
        · simp [List.filter_cons, hpb, hpa, ih hl]
        · simp only [Bool.not_eq_true] at hpa
          simp [List.filter_cons, hpb, hpa, ih hl]

/-- Filtering commutes with the stable insertion sort, for a total
transitive order. -/
lemma filter_insertionSort {α} (r : α → α → Prop) [DecidableRel r]
    (htot : ∀ a b, r a b ∨ r b a) (htr : ∀ a b c, r a b → r b c → r a c)
    (p : α → Bool) :
    ∀ l : List α, (List.insertionSort r l).filter p = List.insertionSort r (l.filter p) := by
  intro l
  haveI : IsTotal α r := ⟨htot⟩
  haveI : IsTrans α r := ⟨fun a b c => htr a b c⟩
  induction l with
  | nil => rfl
  | cons a l ih =>
    have hsorted : (List.insertionSort r l).Pairwise r := List.sorted_insertionSort r l
    rw [List.insertionSort, filter_orderedInsert r htr p a _ hsorted, ih]
    by_cases hpa : p a = true
    · simp [List.filter_cons, hpa, List.insertionSort]
    · simp only [Bool.not_eq_true] at hpa
      simp [List.filter_cons, hpa]

/-- Events dropped by normalization leave the fold state untouched, so a
fold over the filtered list equals the fold over the full list. -/
lemma foldl_stepEvent_filter (p : Event → Bool)
    (hp : ∀ e, p e = false → ∀ acc, stepEvent acc e = acc) :
    ∀ (l : List Event) acc, (l.filter p).foldl stepEvent acc = l.foldl stepEvent acc := by
  intro l
  induction l with
  | nil => intro acc; rfl
  | cons e l ih =>
    intro acc
    by_cases hpe : p e = true
    · simp [List.filter_cons, hpe, List.foldl_cons, ih]
    · simp only [Bool.not_eq_true] at hpe
      simp [List.filter_cons, hpe, List.foldl_cons, ih, hp e hpe acc]

/-- A record whose plate coalesces to the sentinel is skipped by the step. -/
lemma stepEvent_unknown (e : Event) (h : plateOf e = "UNKNOWN") :
    ∀ acc, stepEvent acc e = acc := by
  intro acc
  simp [stepEvent, h]

/-- A record dropped by normalization is skipped by the step. -/
lemma stepEvent_not_keep (e : Event) (h : keepEvent e = false) :
    ∀ acc, stepEvent acc e = acc := by
  intro acc
  by_cases hu : plateOf e = "UNKNOWN"
  · exact stepEvent_unknown e hu acc
  · have hcond : determineGateName e.rule_name e.description = "Gate invalid_plate_format" ∨
        e.rule_name = some "invalid_plate_format" := by
      by_contra hc
      push_neg at hc
      simp [keepEvent, hu, hc.1, hc.2] at h
    simp only [stepEvent]
    rw [if_neg hu, if_pos hcond]

/-- Dropping the normalization-dropped records from the input does not
change the transformation output. -/
lemma transform_filter_keep (p : Event → Bool)
    (hp : ∀ e, p e = false → ∀ acc, stepEvent acc e = acc) (events : List Event) :
    transformToConstructionSiteEvents (events.filter p) = transformToConstructionSiteEvents events := by
  have htot : ∀ a b : Event, a.timestamp ≤ b.timestamp ∨ b.timestamp ≤ a.timestamp := by
    intro a b; omega
  have htr : ∀ a b c : Event,
      a.timestamp ≤ b.timestamp → b.timestamp ≤ c.timestamp → a.timestamp ≤ c.timestamp := by
    intro a b c; omega
  simp only [transformToConstructionSiteEvents]
  rw [← filter_insertionSort (fun a b : Event => a.timestamp ≤ b.timestamp) htot htr p events,
    foldl_stepEvent_filter p hp]

/-- One step preserves the record shape invariant of the output list. -/
lemma stepEvent_wf (acc : List (String × SessionState) × List ClassifiedRecord) (e : Event)
    (hacc : ∀ c ∈ acc.2, WFRecord c) :
    ∀ c ∈ (stepEvent acc e).2, WFRecord c := by
  intro c hc
  by_cases hkeep : keepEvent e = true
  · have hu : ¬(plateOf e = "UNKNOWN") := by
      intro hu
      simp [keepEvent, hu] at hkeep
    have h2 : ¬(determineGateName e.rule_name e.description = "Gate invalid_plate_format" ∨
        e.rule_name = some "invalid_plate_format") := by
      intro h2
      rcases h2 with h2 | h2 <;> simp [keepEvent, h2] at hkeep
    simp only [stepEvent, if_neg hu, if_neg h2] at hc
    by_cases ha : e.event_type = Decision.ALLOW
    · rw [if_pos ha] at hc
      simp only [List.mem_append, List.mem_singleton] at hc
      rcases hc with hc | hc
      · exact hacc c hc
      · subst hc
        refine ⟨rfl, rfl, hu, ?_, ?_, rfl, ?_⟩
        · intro hr; exact h2 (Or.inr hr)
        · intro hg; exact h2 (Or.inl hg)
        · intro hd; exact absurd ha hd
    · rw [if_neg ha] at hc
      simp only [List.mem_append, List.mem_singleton] at hc
      rcases hc with hc | hc
      · exact hacc c hc
      · subst hc
        refine ⟨rfl, rfl, hu, ?_, ?_, rfl, ?_⟩
        · intro hr; exact h2 (Or.inr hr)
        · intro hg; exact h2 (Or.inl hg)
        · intro _; rfl
  · rw [stepEvent_not_keep e (by simpa using hkeep)] at hc
    exact hacc c hc

/-- The fold preserves the record shape invariant. -/
lemma foldl_stepEvent_wf :
    ∀ (l : List Event) acc, (∀ c ∈ acc.2, WFRecord c) →
      ∀ c ∈ (l.foldl stepEvent acc).2, WFRecord c := by
  intro l
  induction l with
  | nil => intro acc hacc; exact hacc
  | cons e l ih =>
    intro acc hacc
    exact ih (stepEvent acc e) (stepEvent_wf acc e hacc)

/-- Every record the transformation emits satisfies the shape invariant. -/
lemma transform_wf (events : List Event) :
    ∀ c ∈ transformToConstructionSiteEvents events, WFRecord c := by
  intro c hc
  simp only [transformToConstructionSiteEvents] at hc
  have hperm := List.perm_insertionSort
    (fun a b : ClassifiedRecord => b.timestamp ≤ a.timestamp)
    ((List.foldl stepEvent ([], [])
      (List.insertionSort (fun a b : Event => a.timestamp ≤ b.timestamp) events)).2)
  have hc' := hperm.mem_iff.mp hc
  exact foldl_stepEvent_wf _ ([], []) (by intro c hc; simp at hc) c hc'

/-- Looking up a key present in the map after the in-place update yields
the written state. -/
lemma lookup_map_update (k : String) (v : SessionState) :
    ∀ m : List (String × SessionState), m.any (fun pr => pr.1 == k) = true →
      lookupState (m.map (fun pr => if pr.1 == k then (pr.1, v) else pr)) k = some v := by
  intro m
  induction m with
  | nil => intro h; simp at h
  | cons pr m ih =>
    intro h
    cases hk : (pr.1 == k) with
    | true => simp [lookupState, List.find?, hk]
    | false =>
      have hm : m.any (fun pr => pr.1 == k) = true := by
        simpa [List.any_cons, hk] using h
      simp only [List.map_cons, hk, Bool.false_eq_true, if_false]
      simp only [lookupState, List.find?, hk]
      exact ih hm

/-- Looking up a fresh key appended at the end of the map yields the
written state. -/
lemma lookup_append_new (k : String) (v : SessionState) :
    ∀ m : List (String × SessionState), m.any (fun pr => pr.1 == k) = false →
      lookupState (m ++ [(k, v)]) k = some v := by
  intro m
  induction m with
  | nil => simp [lookupState, List.find?]
  | cons pr m ih =>
    intro h
    have hk : (pr.1 == k) = false := by
      simpa [List.any_cons] using (List.any_eq_false.mp h) pr (by simp)
    have hm : m.any (fun pr => pr.1 == k) = false := by
      simpa [List.any_cons, hk] using h
    simp only [List.cons_append, lookupState, List.find?, hk]
    exact ih hm

/-- Looking up the key just written into the session map yields the
written state. -/
lemma lookupState_updateState (m : List (String × SessionState)) (k : String)
    (v : SessionState) : lookupState (updateState m k v) k = some v := by
  unfold updateState
  cases hb : m.any (fun pr => pr.1 == k) with
  | true => rw [if_pos rfl]; exact lookup_map_update k v m hb
  | false =>
    rw [if_neg (by simp)]
    exact lookup_append_new k v m hb

/-- Adding one record preserves the plate-group invariant: every group
holds exactly the records of its plate, in order, and every seen record
has a group. -/
lemma addPlate_preserves (seen : List ClassifiedRecord)
    (m : List (String × List ClassifiedRecord)) (c : ClassifiedRecord)
    (h1 : ∀ pr ∈ m, pr.2 = seen.filter (fun x => x.plateNumber == pr.1))
    (h2 : ∀ x ∈ seen, ∃ pr ∈ m, pr.1 = x.plateNumber) :
    (∀ pr ∈ addPlate m c, pr.2 = (seen ++ [c]).filter (fun x => x.plateNumber == pr.1)) ∧
    (∀ x ∈ seen ++ [c], ∃ pr ∈ addPlate m c, pr.1 = x.plateNumber) := by
  unfold addPlate
  cases hany : m.any (fun pr => pr.1 == c.plateNumber) with
  | true =>
    rw [if_pos rfl]
    constructor
    · intro pr' hpr'
      rcases List.mem_map.mp hpr' with ⟨pr, hpr, hf⟩
      cases hk : (pr.1 == c.plateNumber) with
      | true =>
        rw [if_pos hk] at hf
        have hkey : pr.1 = c.plateNumber := by simpa using hk
        subst hf
        simp only [List.filter_append, List.filter_cons, List.filter_nil]
        rw [← h1 pr hpr]
        simp [hkey]
      | false =>
        rw [if_neg (by simp [hk])] at hf
        subst hf
        have hne : (c.plateNumber == pr.1) = false := by
          simp only [beq_eq_false_iff_ne] at hk ⊢
          exact fun h => hk h.symm
        simp only [List.filter_append, List.filter_cons, List.filter_nil, hne]
        rw [← h1 pr hpr]
        simp
    · intro x hx
      rcases List.mem_append.mp hx with hx | hx
      · rcases h2 x hx with ⟨pr, hpr, hkey⟩
        refine ⟨if (pr.1 == c.plateNumber) = true then (pr.1, pr.2 ++ [c]) else pr,
          List.mem_map_of_mem _ hpr, ?_⟩
        by_cases hk : (pr.1 == c.plateNumber) = true
        · rw [if_pos hk]; exact hkey
        · rw [if_neg hk]; exact hkey
      · have hxc : x = c := List.mem_singleton.mp hx
        rcases List.any_eq_true.mp hany with ⟨pr, hpr, hk⟩
        refine ⟨(pr.1, pr.2 ++ [c]), ?_, by rw [hxc]; simpa using hk⟩
        have heq : (if (pr.1 == c.plateNumber) = true then (pr.1, pr.2 ++ [c]) else pr) =
            (pr.1, pr.2 ++ [c]) := if_pos hk
        exact heq ▸ List.mem_map_of_mem _ hpr
  | false =>
    rw [if_neg (by simp)]
    have hnone : ∀ pr ∈ m, (pr.1 == c.plateNumber) = false := by
      intro pr hpr
      have := List.any_eq_false.mp hany pr hpr
      simpa using this
    constructor
    · intro pr' hpr'
      rcases List.mem_append.mp hpr' with hpr' | hpr'
      · have hne : (c.plateNumber == pr'.1) = false := by
          have := hnone pr' hpr'
          simp only [beq_eq_false_iff_ne] at this ⊢
          exact fun h => this h.symm
        simp only [List.filter_append, List.filter_cons, List.filter_nil, hne]
        rw [← h1 pr' hpr']
        simp
      · have hpc : pr' = (c.plateNumber, [c]) := List.mem_singleton.mp hpr'
        subst hpc
        simp only [List.filter_append, List.filter_cons, List.filter_nil]
        have hemp : seen.filter (fun x => x.plateNumber == c.plateNumber) = [] := by
          rw [List.filter_eq_nil_iff]
          intro x hx hbq
          rcases h2 x hx with ⟨pr, hpr, hkey⟩
          have hf := hnone pr hpr
          rw [hkey] at hf
          simp only [beq_eq_false_iff_ne] at hf
          exact hf (by simpa using hbq)
        simp [hemp]
    · intro x hx
      rcases List.mem_append.mp hx with hx | hx
      · rcases h2 x hx with ⟨pr, hpr, hkey⟩
        exact ⟨pr, List.mem_append_left _ hpr, hkey⟩
      · have hxc : x = c := List.mem_singleton.mp hx
        refine ⟨(c.plateNumber, [c]), List.mem_append_right _ (by simp), ?_⟩
        rw [hxc]

/-- The plate-group invariant holds after folding any suffix. -/
lemma foldl_addPlate_inv :
    ∀ (l seen : List ClassifiedRecord) (m : List (String × List ClassifiedRecord)),
      (∀ pr ∈ m, pr.2 = seen.filter (fun x => x.plateNumber == pr.1)) →
      (∀ x ∈ seen, ∃ pr ∈ m, pr.1 = x.plateNumber) →
      (∀ pr ∈ l.foldl addPlate m,
        pr.2 = (seen ++ l).filter (fun x => x.plateNumber == pr.1)) ∧
      (∀ x ∈ seen ++ l, ∃ pr ∈ l.foldl addPlate m, pr.1 = x.plateNumber) := by
  intro l
  induction l with
  | nil =>
    intro seen m h1 h2
    refine ⟨?_, ?_⟩
    · intro pr hpr
      rw [List.append_nil]
      exact h1 pr hpr
    · intro x hx
      rw [List.append_nil] at hx
      exact h2 x hx
  | cons c l ih =>
    intro seen m h1 h2
    have hstep := addPlate_preserves seen m c h1 h2
    have hind := ih (seen ++ [c]) (addPlate m c) hstep.1 hstep.2
    simpa [List.append_assoc] using hind

/-- Every plate group holds exactly the records of its plate, in input order. -/
lemma plateGroups_content (cs : List ClassifiedRecord) :
    ∀ pr ∈ buildPlateGroups cs, pr.2 = cs.filter (fun x => x.plateNumber == pr.1) := by
  intro pr hpr
  have hinv := foldl_addPlate_inv cs [] [] (by simp) (by simp)
  have := hinv.1 pr (by simpa [buildPlateGroups] using hpr)
  simpa using this

/-- Every classified record has a plate group carrying its plate. -/
lemma plateGroups_complete (cs : List ClassifiedRecord) :
    ∀ x ∈ cs, ∃ pr ∈ buildPlateGroups cs, pr.1 = x.plateNumber := by
  intro x hx
  have hinv := foldl_addPlate_inv cs [] [] (by simp) (by simp)
  have := hinv.2 x (by simpa using hx)
  simpa [buildPlateGroups] using this

/-- Membership in a fold that appends a block per group element. -/
lemma mem_foldl_append {α β : Type} (f : α → List β) :
    ∀ (gs : List α) (init : List β) (b : β),
      b ∈ gs.foldl (fun acc x => acc ++ f x) init ↔ b ∈ init ∨ ∃ x ∈ gs, b ∈ f x := by
  intro gs
  induction gs with
  | nil => intro init b; simp
  | cons g gs ih =>
    intro init b
    simp only [List.foldl_cons, ih (init ++ f g) b, List.mem_append, List.mem_cons]
    constructor
    · rintro ((h | h) | ⟨x, hx, hb⟩)
      · exact Or.inl h
      · exact Or.inr ⟨g, Or.inl rfl, h⟩
      · exact Or.inr ⟨x, Or.inr hx, hb⟩
    · rintro (h | ⟨x, hx | hx, hb⟩)
      · exact Or.inl (Or.inl h)
      · subst hx; exact Or.inl (Or.inr hb)
      · exact Or.inr ⟨x, hx, hb⟩

/-- On a list sorted newest-first, `find?` returns a matching element of
maximal timestamp, when it returns one. -/
lemma find?_desc_latest (p : ClassifiedRecord → Bool) :
    ∀ l : List ClassifiedRecord,
      l.Pairwise (fun a b => b.timestamp ≤ a.timestamp) →
      ∀ ex, l.find? p = some ex →
        p ex = true ∧ ∀ y ∈ l, p y = true → y.timestamp ≤ ex.timestamp := by
  intro l
  induction l with
  | nil => intro _ ex h; simp at h
  | cons a l ih =>
    intro hp ex hfind
    have ha : ∀ y ∈ l, y.timestamp ≤ a.timestamp := (List.pairwise_cons.mp hp).1
    have hl := (List.pairwise_cons.mp hp).2
    cases hpa : p a with
    | true =>
      rw [List.find?_cons_of_pos _ hpa] at hfind
      injection hfind with hea
      subst hea
      refine ⟨hpa, ?_⟩
      intro y hy _
      rcases List.mem_cons.mp hy with rfl | hy
      · exact le_refl _
      · exact ha y hy
    | false =>
      rw [List.find?_cons_of_neg _ (by simp [hpa])] at hfind
      rcases ih hl ex hfind with ⟨hpex, hmax⟩
      refine ⟨hpex, ?_⟩
      intro y hy hpy
      rcases List.mem_cons.mp hy with rfl | hy
      · rw [hpa] at hpy; exact absurd hpy (by simp)
      · exact hmax y hy hpy

/-- Adding one record preserves the vendor-map invariant. -/
lemma addVendor_preserves (seen : List ClassifiedRecord)
    (m : List (String × VendorData)) (c : ClassifiedRecord)
    (h : VendorInv seen m) : VendorInv (seen ++ [c]) (addVendor m c) := by
  obtain ⟨h1, h2⟩ := h
  unfold addVendor
  cases hd : (c.decision == Decision.ALLOW) with
  | false =>
    rw [if_neg (by simp [hd])]
    constructor
    · intro pr hpr
      have hc1 : vEntryPred pr.1 c = false := by simp [vEntryPred, hd]
      have hc2 : vExitPred pr.1 c = false := by simp [vExitPred, hd]
      have := h1 pr hpr
      constructor
      · rw [List.filter_append, List.filter_cons, List.filter_nil, hc1, ← this.1]
        simp
      · rw [List.filter_append, List.filter_cons, List.filter_nil, hc2, ← this.2]
        simp
    · intro x hx hall
      rcases List.mem_append.mp hx with hx | hx
      · exact h2 x hx hall
      · have hxc : x = c := List.mem_singleton.mp hx
        rw [hxc] at hall
        simp [hall] at hd
  | true =>
    rw [if_pos rfl]
    have hallow : c.decision = Decision.ALLOW := by simpa using hd
    -- the intermediate map `m1` already contains the vendor key and
    -- satisfies the content/completeness invariants for `seen`
    set key := getVendorName c.plateNumber with hkeydef
    have hm1 : ∀ m1 : List (String × VendorData),
        (∀ pr ∈ m1, pr.2.entries = seen.filter (vEntryPred pr.1) ∧
          pr.2.exits = seen.filter (vExitPred pr.1)) →
        (∀ x ∈ seen, x.decision = Decision.ALLOW →
          ∃ pr ∈ m1, pr.1 = getVendorName x.plateNumber) →
        m1.any (fun pr => pr.1 == key) = true →
        VendorInv (seen ++ [c])
          (m1.map (fun pr => if pr.1 == key then (pr.1, vendorUpd c pr.2) else pr)) := by
      intro m1 g1 g2 gany
      constructor
      · intro pr' hpr'
        rcases List.mem_map.mp hpr' with ⟨pr, hpr, hf⟩
        cases hk : (pr.1 == key) with
        | true =>
          rw [if_pos hk] at hf
          have hkey : key = pr.1 := by
            have : pr.1 = key := by simpa using hk
            exact this.symm
          subst hf
          have hent := (g1 pr hpr).1
          have hext := (g1 pr hpr).2
          cases hdir : c.direction with
          | Entry =>
            have hc1 : vEntryPred pr.1 c = true := by
              simp [vEntryPred, hallow, hdir, ← hkey]
            have hc2 : vExitPred pr.1 c = false := by simp [vExitPred, hdir]
            constructor
            · show (vendorUpd c pr.2).entries = _
              rw [List.filter_append, List.filter_cons, List.filter_nil, hc1]
              simp [vendorUpd, hdir, hent]
            · show (vendorUpd c pr.2).exits = _
              rw [List.filter_append, List.filter_cons, List.filter_nil, hc2]
              simp [vendorUpd, hdir, hext]
          | Exit =>
            have hc1 : vEntryPred pr.1 c = false := by simp [vEntryPred, hdir]
            have hc2 : vExitPred pr.1 c = true := by
              simp [vExitPred, hallow, hdir, ← hkey]
            constructor
            · show (vendorUpd c pr.2).entries = _
              rw [List.filter_append, List.filter_cons, List.filter_nil, hc1]
              simp [vendorUpd, hdir, hent]
            · show (vendorUpd c pr.2).exits = _
              rw [List.filter_append, List.filter_cons, List.filter_nil, hc2]
              simp [vendorUpd, hdir, hext]
        | false =>
          rw [if_neg (by simp [hk])] at hf
          subst hf
          have hne : key ≠ pr.1 := by
            have : pr.1 ≠ key := by simpa using hk
            exact fun hcontra => this hcontra.symm
          have hc1 : vEntryPred pr.1 c = false := by
            simp only [vEntryPred, ← hkeydef, Bool.and_eq_false_iff]
            right
            left
            simpa using hne
          have hc2 : vExitPred pr.1 c = false := by
            simp only [vExitPred, ← hkeydef, Bool.and_eq_false_iff]
            right
            left
            simpa using hne
          have := g1 pr hpr
          constructor
          · rw [List.filter_append, List.filter_cons, List.filter_nil, hc1, ← this.1]
            simp
          · rw [List.filter_append, List.filter_cons, List.filter_nil, hc2, ← this.2]
            simp
      · intro x hx hall
        rcases List.mem_append.mp hx with hx | hx
        · rcases g2 x hx hall with ⟨pr, hpr, hkey⟩
          refine ⟨if (pr.1 == key) = true then (pr.1, vendorUpd c pr.2) else pr,
            List.mem_map_of_mem _ hpr, ?_⟩
          by_cases hk : (pr.1 == key) = true
          · rw [if_pos hk]; exact hkey
          · rw [if_neg hk]; exact hkey
        · have hxc : x = c := List.mem_singleton.mp hx
          rcases List.any_eq_true.mp gany with ⟨pr, hpr, hk⟩
          refine ⟨(pr.1, vendorUpd c pr.2), ?_, ?_⟩
          · have heq : (if (pr.1 == key) = true then (pr.1, vendorUpd c pr.2) else pr) =
                (pr.1, vendorUpd c pr.2) := if_pos hk
            exact heq ▸ List.mem_map_of_mem _ hpr
          · rw [hxc, ← hkeydef]
            simpa using hk
    cases hany : m.any (fun pr => pr.1 == key) with
    | true =>
      rw [if_pos rfl]
      exact hm1 m h1 h2 hany
    | false =>
      rw [if_neg (by simp)]
      have hnone : ∀ pr ∈ m, (pr.1 == key) = false := by
        intro pr hpr
        simpa using List.any_eq_false.mp hany pr hpr
      have hemp1 : seen.filter (vEntryPred key) = [] := by
        rw [List.filter_eq_nil_iff]
        intro x hx hbq
        simp only [vEntryPred, Bool.and_eq_true, beq_iff_eq] at hbq
        rcases h2 x hx hbq.1 with ⟨pr, hpr, hkey⟩
        have := hnone pr hpr
        rw [hkey, hbq.2.1] at this
        simp at this
      have hemp2 : seen.filter (vExitPred key) = [] := by
        rw [List.filter_eq_nil_iff]
        intro x hx hbq
        simp only [vExitPred, Bool.and_eq_true, beq_iff_eq] at hbq
        rcases h2 x hx hbq.1 with ⟨pr, hpr, hkey⟩
        have := hnone pr hpr
        rw [hkey, hbq.2.1] at this
        simp at this
      refine hm1 (m ++ [(key, ⟨[], []⟩)]) ?_ ?_ (by simp)
      · intro pr hpr
        rcases List.mem_append.mp hpr with hpr | hpr
        · exact h1 pr hpr
        · have : pr = (key, ⟨[], []⟩) := List.mem_singleton.mp hpr
          subst this
          exact ⟨hemp1.symm, hemp2.symm⟩
      · intro x hx hall
        rcases h2 x hx hall with ⟨pr, hpr, hkey⟩
        exact ⟨pr, List.mem_append_left _ hpr, hkey⟩

/-- The vendor-map invariant holds after folding any suffix. -/
lemma foldl_addVendor_inv :
    ∀ (l seen : List ClassifiedRecord) (m : List (String × VendorData)),
      VendorInv seen m → VendorInv (seen ++ l) (l.foldl addVendor m) := by
  intro l
  induction l with
  | nil =>
    intro seen m h
    simpa using h
  | cons c l ih =>
    intro seen m h
    have hstep := addVendor_preserves seen m c h
    have hind := ih (seen ++ [c]) (addVendor m c) hstep
    simpa [List.append_assoc] using hind

/-- Every vendor group holds exactly the ALLOW records of its vendor,
split by direction, in input order. -/
lemma vendorGroups_content (cs : List ClassifiedRecord) :
    ∀ pr ∈ buildVendorGroups cs,
      pr.2.entries = cs.filter (vEntryPred pr.1) ∧
      pr.2.exits = cs.filter (vExitPred pr.1) := by
  intro pr hpr
  have hinv := foldl_addVendor_inv cs [] [] ⟨by simp, by simp⟩
  have := hinv.1 pr (by simpa [buildVendorGroups] using hpr)
  simpa using this

/-- An alert is emitted iff some plate group emits it. -/
lemma mem_identifyTheftAlerts (cs : List ClassifiedRecord) (a : TheftAlert) :
    a ∈ identifyTheftAlerts cs ↔
      ∃ pr ∈ buildPlateGroups cs, a ∈ perPlateAlerts pr.1 pr.2 := by
  unfold identifyTheftAlerts
  have hperm := (List.perm_insertionSort (fun a b : TheftAlert => b.timestamp ≤ a.timestamp)
    ((buildPlateGroups cs).foldl (fun acc pr => acc ++ perPlateAlerts pr.1 pr.2) [])).mem_iff
    (a := a)
  exact hperm.trans (by
    simpa using mem_foldl_append
      (fun pr : String × List ClassifiedRecord => perPlateAlerts pr.1 pr.2)
      (buildPlateGroups cs) [] a)

/-- The `No Matching Entry` alerts of one plate group are exactly the
unmatched ALERT exits of the group. -/
lemma perPlate_noMatch_mem (p : String) (l : List ClassifiedRecord) (a : TheftAlert) :
    (a ∈ perPlateAlerts p l ∧ a.alertType = "No Matching Entry") ↔
      ∃ x ∈ l, (x.direction == Direction.Exit && x.decision == Decision.ALERT) = true ∧
        hasMatchingEntry (l.filter (fun c => c.direction == Direction.Entry)) x = false ∧
        a = noMatchingEntryAlertOf p x := by
  unfold perPlateAlerts
  constructor
  · rintro ⟨hmem, htype⟩
    rcases List.mem_append.mp hmem with hmem | hmem
    · rcases List.mem_append.mp hmem with hmem | hmem
      · rcases List.mem_map.mp hmem with ⟨x, _, rfl⟩
        simp [unauthorizedAlertOf] at htype
      · rcases List.mem_filterMap.mp hmem with ⟨x, hx, hfx⟩
        cases hmt : hasMatchingEntry (l.filter (fun c => c.direction == Direction.Entry)) x with
        | true => rw [if_pos hmt] at hfx; exact absurd hfx (by simp)
        | false =>
          rw [if_neg (by simp [hmt])] at hfx
          injection hfx with hfx
          rcases List.mem_filter.mp hx with ⟨hxl, hxp⟩
          exact ⟨x, hxl, hxp, hmt, hfx.symm⟩
    · rcases List.mem_filterMap.mp hmem with ⟨x, _, hfx⟩
      cases hah : isAfterHours x.timestamp with
      | true =>
        rw [if_pos hah] at hfx
        injection hfx with hfx
        rw [← hfx] at htype
        simp [afterHoursAlertOf] at htype
      | false => rw [if_neg (by simp [hah])] at hfx; exact absurd hfx (by simp)
  · rintro ⟨x, hxl, hxp, hmt, rfl⟩
    refine ⟨?_, rfl⟩
    apply List.mem_append_left
    apply List.mem_append_right
    apply List.mem_filterMap.mpr
    refine ⟨x, List.mem_filter.mpr ⟨hxl, hxp⟩, ?_⟩
    rw [if_neg (by simp [hmt])]

/-- The `After Hours Exit` alerts of one plate group are exactly the
after-hours ALERT exits of the group. -/
lemma perPlate_afterHours_mem (p : String) (l : List ClassifiedRecord) (a : TheftAlert) :
    (a ∈ perPlateAlerts p l ∧ a.alertType = "After Hours Exit") ↔
      ∃ x ∈ l, (x.direction == Direction.Exit && x.decision == Decision.ALERT) = true ∧
        isAfterHours x.timestamp = true ∧
        a = afterHoursAlertOf p x := by
  unfold perPlateAlerts
  constructor
  · rintro ⟨hmem, htype⟩
    rcases List.mem_append.mp hmem with hmem | hmem
    · rcases List.mem_append.mp hmem with hmem | hmem
      · rcases List.mem_map.mp hmem with ⟨x, _, rfl⟩
        simp [unauthorizedAlertOf] at htype
      · rcases List.mem_filterMap.mp hmem with ⟨x, _, hfx⟩
        cases hmt : hasMatchingEntry (l.filter (fun c => c.direction == Direction.Entry)) x with
        | true => rw [if_pos hmt] at hfx; exact absurd hfx (by simp)
        | false =>
          rw [if_neg (by simp [hmt])] at hfx
          injection hfx with hfx
          rw [← hfx] at htype
          simp [noMatchingEntryAlertOf] at htype
    · rcases List.mem_filterMap.mp hmem with ⟨x, hx, hfx⟩
      cases hah : isAfterHours x.timestamp with
      | true =>
        rw [if_pos hah] at hfx
        injection hfx with hfx
        rcases List.mem_filter.mp hx with ⟨hxl, hxp⟩
        exact ⟨x, hxl, hxp, hah, hfx.symm⟩
      | false => rw [if_neg (by simp [hah])] at hfx; exact absurd hfx (by simp)
  · rintro ⟨x, hxl, hxp, hah, rfl⟩
    refine ⟨?_, rfl⟩
    apply List.mem_append_right
    apply List.mem_filterMap.mpr
    refine ⟨x, List.mem_filter.mpr ⟨hxl, hxp⟩, ?_⟩
    rw [if_pos hah]

/-- C5: for every classified input sequence, every vendor analytics row
has `suspiciousExits = 0`: the vendor groups are pre-filtered to ALLOW
records and the counter only counts ALERT exits inside them. -/
theorem suspiciousExits_always_zero (cs : List ClassifiedRecord) (today : Int) :
    ∀ v ∈ calculateVendorAnalytics today cs, v.suspiciousExits = 0 := by
  intro v hv
  unfold calculateVendorAnalytics at hv
  have hv' := (List.perm_insertionSort
    (fun a b : VendorAnalytics => b.deliveriesToday ≤ a.deliveriesToday) _).mem_iff.mp hv
  rcases List.mem_map.mp hv' with ⟨pr, hpr, rfl⟩
  have hex := (vendorGroups_content cs pr hpr).2
  show (vendorAnalyticsOf today pr.1 pr.2).suspiciousExits = 0
  simp only [vendorAnalyticsOf]
  rw [hex]
  have hnil : ((cs.filter (vExitPred pr.1)).filter
      (fun ex => ex.decision == Decision.ALERT)) = [] := by
    rw [List.filter_eq_nil_iff]
    intro x hx hdec
    have hall : vExitPred pr.1 x = true := (List.mem_filter.mp hx).2
    simp only [vExitPred, Bool.and_eq_true, beq_iff_eq] at hall
    simp only [beq_iff_eq] at hdec
    rw [hall.1] at hdec
    exact Decision.noConfusion hdec
  rw [hnil]
  rfl

/-- Witness for C5 at a one-record input. -/
theorem suspiciousExits_always_zero_witness :
    (⟨"Maharashtra", 1, none, 0, some 0⟩ : VendorAnalytics).suspiciousExits = 0 :=
  suspiciousExits_always_zero [cAllowEntry] 0 ⟨"Maharashtra", 1, none, 0, some 0⟩ (by decide)

/-- C9: one session-tracker step never mutates any per-plate state on a
non-ALLOW record, and on a surviving ALLOW record it always writes the
record's timestamp into that plate's `lastSeen`, whichever direction rule
fired. -/
theorem sessionState_frame (m : List (String × SessionState)) (out : List ClassifiedRecord)
    (e : Event) :
    (e.event_type ≠ Decision.ALLOW → (stepEvent (m, out) e).1 = m) ∧
    (e.event_type = Decision.ALLOW → keepEvent e = true →
      ∃ st, lookupState (stepEvent (m, out) e).1 (plateOf e) = some st ∧
        st.lastSeen = e.timestamp) := by
  constructor
  · intro hna
    by_cases hu : plateOf e = "UNKNOWN"
    · rw [stepEvent_unknown e hu]
    · by_cases h2 : determineGateName e.rule_name e.description = "Gate invalid_plate_format" ∨
          e.rule_name = some "invalid_plate_format"
      · simp only [stepEvent, if_neg hu, if_pos h2]
      · simp only [stepEvent, if_neg hu, if_neg h2, if_neg hna]
  · intro ha hkeep
    have hu : ¬(plateOf e = "UNKNOWN") := by
      intro hu
      simp [keepEvent, hu] at hkeep
    have h2 : ¬(determineGateName e.rule_name e.description = "Gate invalid_plate_format" ∨
        e.rule_name = some "invalid_plate_format") := by
      intro h2
      rcases h2 with h2 | h2 <;> simp [keepEvent, h2] at hkeep
    simp only [stepEvent, if_neg hu, if_neg h2, if_pos ha]
    exact ⟨_, lookupState_updateState _ _ _, rfl⟩

/-- Witness for C9 at concrete events: an ALERT step leaves the map
untouched, and an ALLOW step stores its timestamp as `lastSeen`. -/
theorem sessionState_frame_witness :
    (stepEvent ([], []) eAlertPlainC9).1 = [] ∧
    ∃ st, lookupState (stepEvent ([], []) eAllowC9).1 (plateOf eAllowC9) = some st ∧
      st.lastSeen = eAllowC9.timestamp :=
  ⟨(sessionState_frame [] [] eAlertPlainC9).1 (by decide),
    (sessionState_frame [] [] eAllowC9).2 rfl (by decide)⟩

/-- C10: a raw record with an absent or empty plate text coalesces to the
`"UNKNOWN"` sentinel, is skipped by the session step (touching no state
and emitting nothing), and removing all such records from the input
leaves the transformation output unchanged. -/
theorem missingPlate_dropped :
    (∀ e : Event, e.plate_text = none ∨ e.plate_text = some "" →
      plateOf e = "UNKNOWN" ∧ ∀ acc, stepEvent acc e = acc) ∧
    (∀ events : List Event,
      transformToConstructionSiteEvents
        (events.filter (fun e => !(e.plate_text == none || e.plate_text == some ""))) =
      transformToConstructionSiteEvents events) := by
  have hunk : ∀ e : Event, e.plate_text = none ∨ e.plate_text = some "" →
      plateOf e = "UNKNOWN" := by
    intro e he
    rcases he with he | he <;> simp [plateOf, he]
  constructor
  · intro e he
    exact ⟨hunk e he, stepEvent_unknown e (hunk e he)⟩
  · intro events
    apply transform_filter_keep
    intro e he acc
    apply stepEvent_unknown
    apply hunk
    have hb : (e.plate_text == none || e.plate_text == some "") = true := by
      cases h0 : (e.plate_text == none || e.plate_text == some "") with
      | true => rfl
      | false => rw [h0] at he; simp at he
    rcases Bool.or_eq_true_iff.mp hb with hb | hb
    · exact Or.inl (eq_of_beq hb)
    · exact Or.inr (eq_of_beq hb)

/-- Witness for C10: the plate-less event coalesces to the sentinel and
its step is the identity. -/
theorem missingPlate_dropped_witness :
    plateOf eNoPlateC10 = "UNKNOWN" ∧ stepEvent ([], []) eNoPlateC10 = ([], []) :=
  ⟨(missingPlate_dropped.1 eNoPlateC10 (Or.inl rfl)).1,
    (missingPlate_dropped.1 eNoPlateC10 (Or.inl rfl)).2 ([], [])⟩

/-- C7: records with the plate sentinel, the invalid-format rule name, or
the invalid-format gate label contribute to none of the three outputs:
filtering them away changes neither the classified list nor the alerts
nor the analytics, and no surviving record carries any of those marks. -/
theorem droppedRecords_invisible (events : List Event) :
    transformToConstructionSiteEvents (events.filter keepEvent) =
      transformToConstructionSiteEvents events ∧
    identifyTheftAlerts (transformToConstructionSiteEvents (events.filter keepEvent)) =
      identifyTheftAlerts (transformToConstructionSiteEvents events) ∧
    (∀ today, calculateVendorAnalytics today
        (transformToConstructionSiteEvents (events.filter keepEvent)) =
      calculateVendorAnalytics today (transformToConstructionSiteEvents events)) ∧
    ∀ c ∈ transformToConstructionSiteEvents events,
      c.plateNumber ≠ "UNKNOWN" ∧ c.ruleName ≠ some "invalid_plate_format" ∧
        c.gateName ≠ "Gate invalid_plate_format" := by
  have h := transform_filter_keep keepEvent (fun e he acc => stepEvent_not_keep e he acc) events
  refine ⟨h, by rw [h], fun today => by rw [h], ?_⟩
  intro c hc
  have hwf := transform_wf events c hc
  exact ⟨hwf.2.2.1, hwf.2.2.2.1, hwf.2.2.2.2.1⟩

/-- Witness for C7: an invalid-plate-format event produces the same
output as the empty input. -/
theorem droppedRecords_invisible_witness :
    transformToConstructionSiteEvents ([] : List Event) =
      transformToConstructionSiteEvents [eInvalidRuleC7] := by
  have h := (droppedRecords_invisible [eInvalidRuleC7]).1
  rwa [show [eInvalidRuleC7].filter keepEvent = [] from by decide] at h

/-- Counterexample to C2 as stated: a LOG_ONLY record whose description
contains the `exit` keyword is assigned direction Entry by the code, not
Exit — the keyword inspection only runs for ALERT records. -/
theorem logOnly_exit_keyword_counterexample :
    hasExitKw (some "vehicle exit") = true ∧
    (transformToConstructionSiteEvents [eLogExitC2]).map (fun c => c.direction) =
      [Direction.Entry] ∧
    Direction.Entry ≠ Direction.Exit := by decide

/-- C2 (amended): a non-ALLOW record is assigned: for ALERT — Exit on an
exit keyword, else Entry on an entry keyword, else Exit; for LOG_ONLY —
always Entry, regardless of the description. -/
theorem nonAllow_direction_rule (events : List Event) :
    ∀ c ∈ transformToConstructionSiteEvents events, c.decision ≠ Decision.ALLOW →
      c.direction =
        if c.decision = Decision.ALERT then
          if hasExitKw c.description then Direction.Exit
          else if hasEntryKw c.description then Direction.Entry
          else Direction.Exit
        else Direction.Entry := by
  intro c hc
  exact (transform_wf events c hc).2.2.2.2.2.2

/-- Witness for the amended C2: the classified ALERT record with no
keyword gets the default Exit of the rule. -/
theorem nonAllow_direction_rule_witness :
    (⟨12, "DL01XY0001", "Material Truck", Direction.Exit, "Main Gate", 3600000,
      Decision.ALERT, Decision.ALERT, some "suspicious load", none⟩ :
        ClassifiedRecord).direction =
      if (Decision.ALERT : Decision) ≠ Decision.ALLOW then Direction.Exit
      else Direction.Entry := by
  have h := nonAllow_direction_rule [eAlertPlainC2]
    ⟨12, "DL01XY0001", "Material Truck", Direction.Exit, "Main Gate", 3600000,
      Decision.ALERT, Decision.ALERT, some "suspicious load", none⟩ (by decide) (by decide)
  simpa using h

/-- Counterexample to C4 as stated: on a description containing both an
excavator and a delivery keyword the code returns Material Truck, because
it checks the truck/material/delivery keywords first — not Machinery as
the claimed priority order would give. -/
theorem category_priority_counterexample :
    hasMachineryKw (some "excavator delivery") = true ∧
    hasTruckKw (some "excavator delivery") = true ∧
    (transformToConstructionSiteEvents [eExcDeliveryC4]).map (fun c => c.vehicleCategory) =
      ["Material Truck"] ∧
    "Material Truck" ≠ "Machinery" := by decide

/-- C4 (amended): the category scan is case-insensitive with first match
in the order truck/material/delivery → Material Truck, then
machinery/excavator/crane → Machinery, then staff/employee/personnel →
Staff, defaulting to Material Truck. -/
theorem vehicleCategory_rule (events : List Event) :
    ∀ c ∈ transformToConstructionSiteEvents events,
      c.vehicleCategory =
        if hasTruckKw c.description then "Material Truck"
        else if hasMachineryKw c.description then "Machinery"
        else if hasStaffKw c.description then "Staff"
        else "Material Truck" := by
  intro c hc
  have h := (transform_wf events c hc).1
  rw [h]
  rfl

/-- Witness for the amended C4: a `Staff` description classifies as Staff. -/
theorem vehicleCategory_rule_witness :
    (⟨14, "KA05AB0001", "Staff", Direction.Entry, "Main Gate", 0,
      Decision.ALLOW, Decision.ALLOW, some "Staff arrival", none⟩ :
        ClassifiedRecord).vehicleCategory = "Staff" := by
  have h := vehicleCategory_rule [eStaffC4]
    ⟨14, "KA05AB0001", "Staff", Direction.Entry, "Main Gate", 0,
      Decision.ALLOW, Decision.ALLOW, some "Staff arrival", none⟩ (by decide)
  simpa using h

/-- C6: a `No Matching Entry` alert is emitted exactly for the ALERT
Exit records with no Entry record of the same plate (of any decision)
earlier by less than 24 hours; non-ALERT exits never produce it. -/
theorem noMatchingEntry_alert_iff (cs : List ClassifiedRecord) (a : TheftAlert) :
    (a ∈ identifyTheftAlerts cs ∧ a.alertType = "No Matching Entry") ↔
      ∃ c, c ∈ cs ∧ c.direction = Direction.Exit ∧ c.decision = Decision.ALERT ∧
        (∀ en ∈ cs, en.plateNumber = c.plateNumber → en.direction = Direction.Entry →
          ¬(en.timestamp < c.timestamp ∧ c.timestamp - en.timestamp < 86400000)) ∧
        a = noMatchingEntryAlertOf c.plateNumber c := by
  constructor
  · rintro ⟨hmem, htype⟩
    rcases (mem_identifyTheftAlerts cs a).mp hmem with ⟨pr, hpr, hper⟩
    rcases (perPlate_noMatch_mem pr.1 pr.2 a).mp ⟨hper, htype⟩ with
      ⟨x, hxl, hxp, hmt, haeq⟩
    have hcontent := plateGroups_content cs pr hpr
    rw [hcontent] at hxl
    rcases List.mem_filter.mp hxl with ⟨hxcs, hxplate⟩
    have hxplate' : x.plateNumber = pr.1 := by simpa using hxplate
    simp only [Bool.and_eq_true, beq_iff_eq] at hxp
    refine ⟨x, hxcs, hxp.1, hxp.2, ?_, by rw [haeq, hxplate']⟩
    intro en hen hplate hdir habs
    have henl : en ∈ pr.2 := by
      rw [hcontent]
      refine List.mem_filter.mpr ⟨hen, ?_⟩
      rw [hplate, hxplate']
      simp
    have hmt' : ∀ en ∈ pr.2, en.direction = Direction.Entry →
        en.timestamp < x.timestamp → 86400000 ≤ x.timestamp - en.timestamp := by
      simpa [hasMatchingEntry] using hmt
    have := hmt' en henl hdir habs.1
    omega
  · rintro ⟨c, hccs, hdir, hdec, hnone, haeq⟩
    rcases plateGroups_complete cs c hccs with ⟨pr, hpr, hkey⟩
    have hcontent := plateGroups_content cs pr hpr
    have hcx : c ∈ pr.2 := by
      rw [hcontent]
      refine List.mem_filter.mpr ⟨hccs, ?_⟩
      rw [hkey]
      simp
    have hmt : hasMatchingEntry
        ((pr.2).filter (fun c => c.direction == Direction.Entry)) c = false := by
      unfold hasMatchingEntry
      rw [List.any_eq_false]
      intro en hen
      rw [hcontent] at hen
      rcases List.mem_filter.mp hen with ⟨hen1, hdir'⟩
      rcases List.mem_filter.mp hen1 with ⟨hencs, hplate⟩
      have h1 : en.plateNumber = c.plateNumber := by
        have hp1 : en.plateNumber = pr.1 := by simpa using hplate
        rw [hp1, hkey]
      have h2 : en.direction = Direction.Entry := by simpa using hdir'
      have hres := hnone en hencs h1 h2
      simpa using hres
    have hx := (perPlate_noMatch_mem pr.1 pr.2 a).mpr
      ⟨c, hcx, by simp [hdir, hdec], hmt, by rw [haeq, hkey]⟩
    exact ⟨(mem_identifyTheftAlerts cs a).mpr ⟨pr, hpr, hx.1⟩, hx.2⟩

/-- Witness for C6: the unmatched ALERT exit yields a `No Matching Entry`
alert. -/
theorem noMatchingEntry_alert_iff_witness :
    noMatchingEntryAlertOf "MH12AB1234" cAlertLeavingC6 ∈
      identifyTheftAlerts [cAlertLeavingC6] :=
  ((noMatchingEntry_alert_iff [cAlertLeavingC6]
      (noMatchingEntryAlertOf "MH12AB1234" cAlertLeavingC6)).mpr
    ⟨cAlertLeavingC6, by decide, rfl, rfl, by decide, rfl⟩).1

/-- C8: an `After Hours Exit` alert is emitted exactly for the ALERT Exit
records whose hour of day is before 6 or at/after 20. -/
theorem afterHours_alert_iff (cs : List ClassifiedRecord) (a : TheftAlert) :
    (a ∈ identifyTheftAlerts cs ∧ a.alertType = "After Hours Exit") ↔
      ∃ c, c ∈ cs ∧ c.direction = Direction.Exit ∧ c.decision = Decision.ALERT ∧
        (hourOfMs c.timestamp < 6 ∨ hourOfMs c.timestamp ≥ 20) ∧
        a = afterHoursAlertOf c.plateNumber c := by
  constructor
  · rintro ⟨hmem, htype⟩
    rcases (mem_identifyTheftAlerts cs a).mp hmem with ⟨pr, hpr, hper⟩
    rcases (perPlate_afterHours_mem pr.1 pr.2 a).mp ⟨hper, htype⟩ with
      ⟨x, hxl, hxp, hah, haeq⟩
    have hcontent := plateGroups_content cs pr hpr
    rw [hcontent] at hxl
    rcases List.mem_filter.mp hxl with ⟨hxcs, hxplate⟩
    have hxplate' : x.plateNumber = pr.1 := by simpa using hxplate
    simp only [Bool.and_eq_true, beq_iff_eq] at hxp
    refine ⟨x, hxcs, hxp.1, hxp.2, ?_, by rw [haeq, hxplate']⟩
    simpa [isAfterHours] using hah
  · rintro ⟨c, hccs, hdir, hdec, hhour, haeq⟩
    rcases plateGroups_complete cs c hccs with ⟨pr, hpr, hkey⟩
    have hcontent := plateGroups_content cs pr hpr
    have hcx : c ∈ pr.2 := by
      rw [hcontent]
      refine List.mem_filter.mpr ⟨hccs, ?_⟩
      rw [hkey]
      simp
    have hah : isAfterHours c.timestamp = true := by
      simpa [isAfterHours] using hhour
    have hx := (perPlate_afterHours_mem pr.1 pr.2 a).mpr
      ⟨c, hcx, by simp [hdir, hdec], hah, by rw [haeq, hkey]⟩
    exact ⟨(mem_identifyTheftAlerts cs a).mpr ⟨pr, hpr, hx.1⟩, hx.2⟩

/-- Witness for C8: the 22:00 exit yields an after-hours alert; the same
record at 14:00 yields none. -/
theorem afterHours_alert_iff_witness :
    afterHoursAlertOf "MH12AB1234" cAlert22C8 ∈ identifyTheftAlerts [cAlert22C8] ∧
    ∀ a ∈ identifyTheftAlerts [cAlert14C8], a.alertType ≠ "After Hours Exit" := by
  constructor
  · exact ((afterHours_alert_iff [cAlert22C8]
        (afterHoursAlertOf "MH12AB1234" cAlert22C8)).mpr
      ⟨cAlert22C8, by decide, rfl, rfl, by decide, rfl⟩).1
  · decide

/-- Components of a surviving record's keep test. -/
lemma keepEvent_parts (e : Event) (h : keepEvent e = true) :
    ¬(plateOf e = "UNKNOWN") ∧
    ¬(determineGateName e.rule_name e.description = "Gate invalid_plate_format" ∨
      e.rule_name = some "invalid_plate_format") := by
  constructor
  · intro hu; simp [keepEvent, hu] at h
  · intro h2; rcases h2 with h2 | h2 <;> simp [keepEvent, h2] at h

/-- C1: three ALLOW records of one plate at `t0`, `t0+10min`, `t0+3h`
with keyword-free descriptions are classified Entry, Exit, Entry: the
fresh state gives Entry, the pending entry gives Exit, and the more than
two hour gap since `lastSeen` gives Entry again. -/
theorem session_three_event_pattern (p : String) (t0 : Int) (i1 i2 i3 : Nat)
    (d1 d2 d3 r1 r2 r3 : Option String)
    (hk1 : keepEvent ⟨i1, Decision.ALLOW, d1, r1, t0, some p⟩ = true)
    (hk2 : keepEvent ⟨i2, Decision.ALLOW, d2, r2, t0 + 600000, some p⟩ = true)
    (hk3 : keepEvent ⟨i3, Decision.ALLOW, d3, r3, t0 + 10800000, some p⟩ = true)
    (hd1 : hasExitKw d1 = false ∧ hasEntryKw d1 = false)
    (hd2 : hasExitKw d2 = false ∧ hasEntryKw d2 = false)
    (hd3 : hasExitKw d3 = false ∧ hasEntryKw d3 = false) :
    ((transformToConstructionSiteEvents
        [⟨i1, Decision.ALLOW, d1, r1, t0, some p⟩,
         ⟨i2, Decision.ALLOW, d2, r2, t0 + 600000, some p⟩,
         ⟨i3, Decision.ALLOW, d3, r3, t0 + 10800000, some p⟩]).map
      (fun c => (c.id, c.direction))).Perm
      [(i1, Direction.Entry), (i2, Direction.Exit), (i3, Direction.Entry)] := by
  have hpne : ¬(p = "") := by
    intro hzero
    subst hzero
    exact (keepEvent_parts _ hk1).1 rfl
  have hup : ¬(p = "UNKNOWN") := by
    intro h
    exact (keepEvent_parts _ hk1).1 (by simp [plateOf, hpne, h])
  have hg1 : ¬(determineGateName r1 d1 = "Gate invalid_plate_format" ∨
      r1 = some "invalid_plate_format") := (keepEvent_parts _ hk1).2
  have hg2 : ¬(determineGateName r2 d2 = "Gate invalid_plate_format" ∨
      r2 = some "invalid_plate_format") := (keepEvent_parts _ hk2).2
  have hg3 : ¬(determineGateName r3 d3 = "Gate invalid_plate_format" ∨
      r3 = some "invalid_plate_format") := (keepEvent_parts _ hk3).2
  have harith2 : ¬(t0 + 600000 - t0 > 7200000) := by omega
  have harith3 : t0 + 10800000 - (t0 + 600000) > 7200000 := by omega
  have hpair : List.Pairwise (fun a b : Event => a.timestamp ≤ b.timestamp)
      [⟨i1, Decision.ALLOW, d1, r1, t0, some p⟩,
       ⟨i2, Decision.ALLOW, d2, r2, t0 + 600000, some p⟩,
       ⟨i3, Decision.ALLOW, d3, r3, t0 + 10800000, some p⟩] := by
    refine List.Pairwise.cons ?_ (List.Pairwise.cons ?_
      (List.Pairwise.cons ?_ List.Pairwise.nil))
    · intro b hb
      rcases List.mem_cons.mp hb with rfl | hb
      · show t0 ≤ t0 + 600000
        omega
      · rcases List.mem_singleton.mp hb with rfl
        show t0 ≤ t0 + 10800000
        omega
    · intro b hb
      rcases List.mem_singleton.mp hb with rfl
      show t0 + 600000 ≤ t0 + 10800000
      omega
    · intro b hb
      exact absurd hb (List.not_mem_nil b)
  have hsorted : List.insertionSort (fun a b : Event => a.timestamp ≤ b.timestamp)
      [⟨i1, Decision.ALLOW, d1, r1, t0, some p⟩,
       ⟨i2, Decision.ALLOW, d2, r2, t0 + 600000, some p⟩,
       ⟨i3, Decision.ALLOW, d3, r3, t0 + 10800000, some p⟩] =
      [⟨i1, Decision.ALLOW, d1, r1, t0, some p⟩,
       ⟨i2, Decision.ALLOW, d2, r2, t0 + 600000, some p⟩,
       ⟨i3, Decision.ALLOW, d3, r3, t0 + 10800000, some p⟩] :=
    List.Sorted.insertionSort_eq hpair
  have h1 : stepEvent ([], []) ⟨i1, Decision.ALLOW, d1, r1, t0, some p⟩ =
      ([(p, ⟨t0, t0, 1, 0⟩)],
       [⟨i1, p, determineVehicleCategory p d1, Direction.Entry,
         determineGateName r1 d1, t0, Decision.ALLOW, Decision.ALLOW, d1, r1⟩]) := by
    simp [stepEvent, plateOf, hpne, hup, hg1, lookupState, updateState]
  have h2 : stepEvent
      ([(p, ⟨t0, t0, 1, 0⟩)],
       [⟨i1, p, determineVehicleCategory p d1, Direction.Entry,
         determineGateName r1 d1, t0, Decision.ALLOW, Decision.ALLOW, d1, r1⟩])
      ⟨i2, Decision.ALLOW, d2, r2, t0 + 600000, some p⟩ =
      ([(p, ⟨t0, t0 + 600000, 1, 1⟩)],
       [⟨i1, p, determineVehicleCategory p d1, Direction.Entry,
         determineGateName r1 d1, t0, Decision.ALLOW, Decision.ALLOW, d1, r1⟩,
        ⟨i2, p, determineVehicleCategory p d2, Direction.Exit,
         determineGateName r2 d2, t0 + 600000, Decision.ALLOW, Decision.ALLOW, d2, r2⟩]) := by
    simp [stepEvent, plateOf, hpne, hup, hg2, lookupState, updateState, List.find?,
      harith2]
  have h3 : stepEvent
      ([(p, ⟨t0, t0 + 600000, 1, 1⟩)],
       [⟨i1, p, determineVehicleCategory p d1, Direction.Entry,
         determineGateName r1 d1, t0, Decision.ALLOW, Decision.ALLOW, d1, r1⟩,
        ⟨i2, p, determineVehicleCategory p d2, Direction.Exit,
         determineGateName r2 d2, t0 + 600000, Decision.ALLOW, Decision.ALLOW, d2, r2⟩])
      ⟨i3, Decision.ALLOW, d3, r3, t0 + 10800000, some p⟩ =
      ([(p, ⟨t0 + 10800000, t0 + 10800000, 2, 1⟩)],
       [⟨i1, p, determineVehicleCategory p d1, Direction.Entry,
         determineGateName r1 d1, t0, Decision.ALLOW, Decision.ALLOW, d1, r1⟩,
        ⟨i2, p, determineVehicleCategory p d2, Direction.Exit,
         determineGateName r2 d2, t0 + 600000, Decision.ALLOW, Decision.ALLOW, d2, r2⟩,
        ⟨i3, p, determineVehicleCategory p d3, Direction.Entry,
         determineGateName r3 d3, t0 + 10800000, Decision.ALLOW, Decision.ALLOW, d3, r3⟩]) := by
    simp [stepEvent, plateOf, hpne, hup, hg3, lookupState, updateState, List.find?,
      harith3]
  simp only [transformToConstructionSiteEvents, hsorted, List.foldl_cons, List.foldl_nil,
    h1, h2, h3]
  have hperm := (List.perm_insertionSort
    (fun a b : ClassifiedRecord => b.timestamp ≤ a.timestamp)
    [⟨i1, p, determineVehicleCategory p d1, Direction.Entry,
       determineGateName r1 d1, t0, Decision.ALLOW, Decision.ALLOW, d1, r1⟩,
     ⟨i2, p, determineVehicleCategory p d2, Direction.Exit,
       determineGateName r2 d2, t0 + 600000, Decision.ALLOW, Decision.ALLOW, d2, r2⟩,
     ⟨i3, p, determineVehicleCategory p d3, Direction.Entry,
       determineGateName r3 d3, t0 + 10800000, Decision.ALLOW, Decision.ALLOW, d3, r3⟩]).map
    (fun c : ClassifiedRecord => (c.id, c.direction))
  simpa using hperm

/-- Witness for C1 at a concrete plate and base time. -/
theorem session_three_event_pattern_witness :
    ((transformToConstructionSiteEvents
        [⟨1, Decision.ALLOW, none, none, 0, some "MH12AB1234"⟩,
         ⟨2, Decision.ALLOW, none, none, 600000, some "MH12AB1234"⟩,
         ⟨3, Decision.ALLOW, none, none, 10800000, some "MH12AB1234"⟩]).map
      (fun c => (c.id, c.direction))).Perm
      [(1, Direction.Entry), (2, Direction.Exit), (3, Direction.Entry)] := by
  have h := session_three_event_pattern "MH12AB1234" 0 1 2 3 none none none none none none
    (by decide) (by decide) (by decide) (by decide) (by decide) (by decide)
  simpa using h

/-- The transformation output is sorted newest-first. -/
lemma transform_sorted_desc (events : List Event) :
    (transformToConstructionSiteEvents events).Pairwise
      (fun a b : ClassifiedRecord => b.timestamp ≤ a.timestamp) := by
  simp only [transformToConstructionSiteEvents]
  haveI : IsTotal ClassifiedRecord (fun a b => b.timestamp ≤ a.timestamp) :=
    ⟨fun a b => le_total b.timestamp a.timestamp⟩
  haveI : IsTrans ClassifiedRecord (fun a b => b.timestamp ≤ a.timestamp) :=
    ⟨fun _ _ _ hab hbc => le_trans hbc hab⟩
  exact List.sorted_insertionSort _ _

/-- Counterexample to C3 as stated: with an entry at `t = 0` and exits at
one and two hours, the code matches the entry with the two-hour exit (the
first in the newest-first group order), giving an average of 120 minutes,
while the specified earliest-exit matching would give 60 minutes. -/
theorem duration_matching_counterexample :
    (calculateVendorAnalytics 999 (transformToConstructionSiteEvents [eC3a, eC3b, eC3c])).map
        (fun v => v.averageDuration) = [some (120 : ℚ)] ∧
    averageOf (specDurationsOf
        (vendorEntriesOf (transformToConstructionSiteEvents [eC3a, eC3b, eC3c]) "Maharashtra")
        (vendorExitsOf (transformToConstructionSiteEvents [eC3a, eC3b, eC3c]) "Maharashtra")) =
      some (60 : ℚ) ∧
    (some (120 : ℚ) : Option ℚ) ≠ some (60 : ℚ) := by
  have hcs : transformToConstructionSiteEvents [eC3a, eC3b, eC3c] =
      [⟨23, "MH11AA1111", "Material Truck", Direction.Exit, "Main Gate", 7200000,
        Decision.ALLOW, Decision.ALLOW, some "exit", none⟩,
       ⟨22, "MH11AA1111", "Material Truck", Direction.Exit, "Main Gate", 3600000,
        Decision.ALLOW, Decision.ALLOW, none, none⟩,
       ⟨21, "MH11AA1111", "Material Truck", Direction.Entry, "Main Gate", 0,
        Decision.ALLOW, Decision.ALLOW, none, none⟩] := by decide
  refine ⟨?_, ?_, by norm_num⟩
  · rw [hcs]
    have hca : calculateVendorAnalytics 999
        [⟨23, "MH11AA1111", "Material Truck", Direction.Exit, "Main Gate", 7200000,
          Decision.ALLOW, Decision.ALLOW, some "exit", none⟩,
         ⟨22, "MH11AA1111", "Material Truck", Direction.Exit, "Main Gate", 3600000,
          Decision.ALLOW, Decision.ALLOW, none, none⟩,
         ⟨21, "MH11AA1111", "Material Truck", Direction.Entry, "Main Gate", 0,
          Decision.ALLOW, Decision.ALLOW, none, none⟩] =
        [vendorAnalyticsOf 999 "Maharashtra"
          ⟨[⟨21, "MH11AA1111", "Material Truck", Direction.Entry, "Main Gate", 0,
             Decision.ALLOW, Decision.ALLOW, none, none⟩],
           [⟨23, "MH11AA1111", "Material Truck", Direction.Exit, "Main Gate", 7200000,
             Decision.ALLOW, Decision.ALLOW, some "exit", none⟩,
            ⟨22, "MH11AA1111", "Material Truck", Direction.Exit, "Main Gate", 3600000,
             Decision.ALLOW, Decision.ALLOW, none, none⟩]⟩] := by
      have hgroups : buildVendorGroups
          [⟨23, "MH11AA1111", "Material Truck", Direction.Exit, "Main Gate", 7200000,
            Decision.ALLOW, Decision.ALLOW, some "exit", none⟩,
           ⟨22, "MH11AA1111", "Material Truck", Direction.Exit, "Main Gate", 3600000,
            Decision.ALLOW, Decision.ALLOW, none, none⟩,
           ⟨21, "MH11AA1111", "Material Truck", Direction.Entry, "Main Gate", 0,
            Decision.ALLOW, Decision.ALLOW, none, none⟩] =
          [("Maharashtra",
            ⟨[⟨21, "MH11AA1111", "Material Truck", Direction.Entry, "Main Gate", 0,
               Decision.ALLOW, Decision.ALLOW, none, none⟩],
             [⟨23, "MH11AA1111", "Material Truck", Direction.Exit, "Main Gate", 7200000,
               Decision.ALLOW, Decision.ALLOW, some "exit", none⟩,
              ⟨22, "MH11AA1111", "Material Truck", Direction.Exit, "Main Gate", 3600000,
               Decision.ALLOW, Decision.ALLOW, none, none⟩]⟩)] := by decide
      unfold calculateVendorAnalytics
      rw [hgroups]
      rfl
    rw [hca]
    have hfind : List.find? (matchPred
        ⟨21, "MH11AA1111", "Material Truck", Direction.Entry, "Main Gate", 0,
          Decision.ALLOW, Decision.ALLOW, none, none⟩)
        [⟨23, "MH11AA1111", "Material Truck", Direction.Exit, "Main Gate", 7200000,
          Decision.ALLOW, Decision.ALLOW, some "exit", none⟩,
         ⟨22, "MH11AA1111", "Material Truck", Direction.Exit, "Main Gate", 3600000,
          Decision.ALLOW, Decision.ALLOW, none, none⟩] =
        some ⟨23, "MH11AA1111", "Material Truck", Direction.Exit, "Main Gate", 7200000,
          Decision.ALLOW, Decision.ALLOW, some "exit", none⟩ := by decide
    have hdur : durationsOf
        [⟨21, "MH11AA1111", "Material Truck", Direction.Entry, "Main Gate", 0,
          Decision.ALLOW, Decision.ALLOW, none, none⟩]
        [⟨23, "MH11AA1111", "Material Truck", Direction.Exit, "Main Gate", 7200000,
          Decision.ALLOW, Decision.ALLOW, some "exit", none⟩,
         ⟨22, "MH11AA1111", "Material Truck", Direction.Exit, "Main Gate", 3600000,
          Decision.ALLOW, Decision.ALLOW, none, none⟩] =
        [((7200000 : Int) : ℚ) / 60000] := by
      simp only [durationsOf, List.filterMap_cons, List.filterMap_nil, hfind,
        Option.map_some']
      norm_num
    have hproj : ([vendorAnalyticsOf 999 "Maharashtra"
        ⟨[⟨21, "MH11AA1111", "Material Truck", Direction.Entry, "Main Gate", 0,
          Decision.ALLOW, Decision.ALLOW, none, none⟩],
         [⟨23, "MH11AA1111", "Material Truck", Direction.Exit, "Main Gate", 7200000,
          Decision.ALLOW, Decision.ALLOW, some "exit", none⟩,
          ⟨22, "MH11AA1111", "Material Truck", Direction.Exit, "Main Gate", 3600000,
          Decision.ALLOW, Decision.ALLOW, none, none⟩]⟩].map (fun v => v.averageDuration)) =
        [averageOf (durationsOf
          [⟨21, "MH11AA1111", "Material Truck", Direction.Entry, "Main Gate", 0,
          Decision.ALLOW, Decision.ALLOW, none, none⟩]
          [⟨23, "MH11AA1111", "Material Truck", Direction.Exit, "Main Gate", 7200000,
          Decision.ALLOW, Decision.ALLOW, some "exit", none⟩,
           ⟨22, "MH11AA1111", "Material Truck", Direction.Exit, "Main Gate", 3600000,
          Decision.ALLOW, Decision.ALLOW, none, none⟩])] := rfl
    rw [hproj, hdur]
    simp only [averageOf, List.foldl_cons, List.foldl_nil, List.length_cons,
      List.length_nil]
    norm_num
  · have hent : vendorEntriesOf (transformToConstructionSiteEvents [eC3a, eC3b, eC3c])
        "Maharashtra" =
        [⟨21, "MH11AA1111", "Material Truck", Direction.Entry, "Main Gate", 0,
          Decision.ALLOW, Decision.ALLOW, none, none⟩] := by decide
    have hext : vendorExitsOf (transformToConstructionSiteEvents [eC3a, eC3b, eC3c])
        "Maharashtra" =
        [⟨23, "MH11AA1111", "Material Truck", Direction.Exit, "Main Gate", 7200000,
          Decision.ALLOW, Decision.ALLOW, some "exit", none⟩,
         ⟨22, "MH11AA1111", "Material Truck", Direction.Exit, "Main Gate", 3600000,
          Decision.ALLOW, Decision.ALLOW, none, none⟩] := by decide
    have hspec : specEarliestMatchingExit
        ⟨21, "MH11AA1111", "Material Truck", Direction.Entry, "Main Gate", 0,
          Decision.ALLOW, Decision.ALLOW, none, none⟩
        [⟨23, "MH11AA1111", "Material Truck", Direction.Exit, "Main Gate", 7200000,
          Decision.ALLOW, Decision.ALLOW, some "exit", none⟩,
         ⟨22, "MH11AA1111", "Material Truck", Direction.Exit, "Main Gate", 3600000,
          Decision.ALLOW, Decision.ALLOW, none, none⟩] =
        some ⟨22, "MH11AA1111", "Material Truck", Direction.Exit, "Main Gate", 3600000,
          Decision.ALLOW, Decision.ALLOW, none, none⟩ := by decide
    rw [hent, hext]
    have hspecdur : specDurationsOf
        [⟨21, "MH11AA1111", "Material Truck", Direction.Entry, "Main Gate", 0,
          Decision.ALLOW, Decision.ALLOW, none, none⟩]
        [⟨23, "MH11AA1111", "Material Truck", Direction.Exit, "Main Gate", 7200000,
          Decision.ALLOW, Decision.ALLOW, some "exit", none⟩,
         ⟨22, "MH11AA1111", "Material Truck", Direction.Exit, "Main Gate", 3600000,
          Decision.ALLOW, Decision.ALLOW, none, none⟩] =
        [((3600000 : Int) : ℚ) / 60000] := by
      simp only [specDurationsOf, List.filterMap_cons, List.filterMap_nil, hspec,
        Option.map_some']
      norm_num
    rw [hspecdur]
    simp only [averageOf, List.foldl_cons, List.foldl_nil, List.length_cons,
      List.length_nil]
    norm_num

/-- C3 (amended): each Entry of a vendor group is matched with the first
Exit of the group in its newest-first order — that is, the LATEST Exit
with `exitTimestamp > entryTimestamp` and a gap under 24 hours, not the
earliest; `averageDuration` is the arithmetic mean of the matched
durations in minutes, `none` when no entry has a match. -/
theorem duration_matching_rule (events : List Event) (today : Int) (v : VendorAnalytics)
    (hv : v ∈ calculateVendorAnalytics today (transformToConstructionSiteEvents events)) :
    v.averageDuration = averageOf (durationsOf
      (vendorEntriesOf (transformToConstructionSiteEvents events) v.vendorName)
      (vendorExitsOf (transformToConstructionSiteEvents events) v.vendorName)) ∧
    (∀ en ∈ vendorEntriesOf (transformToConstructionSiteEvents events) v.vendorName,
      ∀ ex, (vendorExitsOf (transformToConstructionSiteEvents events) v.vendorName).find?
          (matchPred en) = some ex →
        matchPred en ex = true ∧
        ∀ y ∈ vendorExitsOf (transformToConstructionSiteEvents events) v.vendorName,
          matchPred en y = true → y.timestamp ≤ ex.timestamp) ∧
    (∀ en ∈ vendorEntriesOf (transformToConstructionSiteEvents events) v.vendorName,
      (vendorExitsOf (transformToConstructionSiteEvents events) v.vendorName).find?
          (matchPred en) = none →
        ∀ y ∈ vendorExitsOf (transformToConstructionSiteEvents events) v.vendorName,
          matchPred en y = false) := by
  unfold calculateVendorAnalytics at hv
  have hv' := (List.perm_insertionSort
    (fun a b : VendorAnalytics => b.deliveriesToday ≤ a.deliveriesToday) _).mem_iff.mp hv
  rcases List.mem_map.mp hv' with ⟨pr, hpr, rfl⟩
  have hcontent := vendorGroups_content (transformToConstructionSiteEvents events) pr hpr
  have hname : (vendorAnalyticsOf today pr.1 pr.2).vendorName = pr.1 := rfl
  have hexits_sorted : (vendorExitsOf (transformToConstructionSiteEvents events)
      pr.1).Pairwise (fun a b : ClassifiedRecord => b.timestamp ≤ a.timestamp) :=
    List.Pairwise.sublist (List.filter_sublist _) (transform_sorted_desc events)
  refine ⟨?_, ?_, ?_⟩
  · show averageOf (durationsOf pr.2.entries pr.2.exits) = _
    rw [hname, hcontent.1, hcontent.2]
    rfl
  · intro en _ ex hfound
    rw [hname] at hfound ⊢
    exact find?_desc_latest (matchPred en) _ hexits_sorted ex hfound
  · intro en _ hnone y hy
    rw [hname] at hnone hy
    have := List.find?_eq_none.mp hnone y hy
    simpa using this

/-- Witness for the amended C3 at a one-entry input with no exits. -/
theorem duration_matching_rule_witness :
    (⟨"Maharashtra", 1, none, 0, some 0⟩ : VendorAnalytics).averageDuration =
      averageOf (durationsOf
        (vendorEntriesOf (transformToConstructionSiteEvents [eC3a]) "Maharashtra")
        (vendorExitsOf (transformToConstructionSiteEvents [eC3a]) "Maharashtra")) :=
  (duration_matching_rule [eC3a] 0 ⟨"Maharashtra", 1, none, 0, some 0⟩ (by decide)).1
